import Mathlib

/-!
Verification of the Teleconsole client against its specification.

The definitions below are a shallow embedding of the Go sources:
`lib/identity.go` (identity and user maps), `lib/net.go` (host/port
utilities and the forward-spec parser), `geo/geo.go` (endpoint table and
session-prefix routing), `clt/api.go` (the broker HTTP client),
`clt/httperror.go` (HTTP error mapping) and `clt/clt.go` (the broadcast
poll loop and the joiner key search).  Effectful operations (HTTP,
the file system, the random source) are passed in explicitly as oracles,
so every definition is executable.
-/

deriving instance DecidableEq for Except

/-! ## Go standard-library string and net helpers -/

/-- Index of the first occurrence of `c` in `l` (Go `strings.IndexByte`). -/
def charIndexOf : List Char → Char → Option Nat
  | [], _ => none
  | a :: rest, c => if a = c then some 0 else (charIndexOf rest c).map (· + 1)

/-- Index of the last occurrence of `c` in `l` (the `last` helper inside
Go `net.SplitHostPort`). -/
def charLastIndexOf (l : List Char) (c : Char) : Option Nat :=
  ((l.enum.filter (fun p => p.2 = c)).map (fun p => p.1)).getLast?

/-- Go `strings.HasPrefix`. -/
def strHasPrefix (s pre : String) : Bool :=
  pre.toList.isPrefixOf s.toList

/-- Go slicing `s[n:]` (the uses in this code base slice off an ASCII
prefix, so byte positions and character positions agree). -/
def strDrop (s : String) (n : Nat) : String :=
  String.mk (s.toList.drop n)

/-- Go `unicode.IsSpace` on the characters relevant to `strings.TrimSpace`. -/
def goIsSpace (c : Char) : Bool :=
  c == ' ' || c == '\t' || c == '\n' || c.toNat == 11 || c.toNat == 12 ||
  c == '\r' || c.toNat == 0x85 || c.toNat == 0xa0

/-- Go `strings.TrimSpace`. -/
def goTrimSpace (s : String) : String :=
  String.mk (((s.toList.dropWhile goIsSpace).reverse.dropWhile goIsSpace).reverse)

/-- Go `net.SplitHostPort`: splits `host:port` (with optional `[...]`
around the host) into host and port, or fails. -/
def splitHostPort (hostPort : String) : Except String (String × String) :=
  let s := hostPort.toList
  match charLastIndexOf s ':' with
  | none => .error "missing port in address"
  | some i =>
    if s.head? = some '[' then
      match charIndexOf s ']' with
      | none => .error "missing right bracket in address"
      | some e =>
        if e + 1 = s.length then .error "missing port in address"
        else if e + 1 = i then
          if (charIndexOf (s.drop 1) '[').isSome then .error "unexpected bracket in address"
          else if (charIndexOf (s.drop (e + 1)) ']').isSome then .error "unexpected bracket in address"
          else .ok (String.mk ((s.drop 1).take (e - 1)), String.mk (s.drop (i + 1)))
        else if s.get? (e + 1) = some ':' then .error "too many colons in address"
        else .error "missing port in address"
    else
      let host := s.take i
      if (charIndexOf host ':').isSome then .error "too many colons in address"
      else if (charIndexOf s '[').isSome then .error "unexpected bracket in address"
      else if (charIndexOf s ']').isSome then .error "unexpected bracket in address"
      else .ok (String.mk host, String.mk (s.drop (i + 1)))

/-- Go `net.JoinHostPort`. -/
def joinHostPort (host port : String) : String :=
  if (charIndexOf host.toList ':').isSome then "[" ++ host ++ "]:" ++ port
  else host ++ ":" ++ port

/-! ## lib/net.go -/

/-- `lib.ReplaceHost` from `lib/net.go`: takes a `host:port` string (with
optional port), replaces the host with the host part of `newHost` and
returns the result. -/
def replaceHost (hostPort newHost : String) : String :=
  let newHost' := match splitHostPort newHost with
    | .ok (h, _) => h
    | .error _ => ""
  match splitHostPort hostPort with
  | .ok (_, port) => if port ≠ "" then joinHostPort newHost' port else newHost'
  | .error _ => newHost'

/-! ## geo/geo.go -/

/-- `geo.Endpoint`: a Teleconsole proxy server with its session-id geo tag. -/
structure GeoEndpoint where
  hostname : String
  sessionTag : String
deriving DecidableEq, Repr

/-- Modelled from the spec: `conf.DefaultServerHost`, the default (US)
Teleconsole server hostname.  The `conf` constants file is not among the
sources; the value is fixed by `src/unnamed/part_019`, where the same
default endpoint is the literal "teleconsole.com". -/
def DefaultServerHost : String := "teleconsole.com"

/-- `geo.DefaultEndpoint`: US West is the default, with the empty session
prefix. -/
def DefaultEndpoint : GeoEndpoint :=
  { hostname := DefaultServerHost, sessionTag := "" }

/-- `geo.Endpoints`: the static table of Teleconsole proxy servers. -/
def Endpoints : List GeoEndpoint :=
  [DefaultEndpoint,
   { hostname := "eu.teleconsole.com", sessionTag := "eu" },
   { hostname := "as.teleconsole.com", sessionTag := "as" }]

/-- `geo.SesionPrefixFor`: finds a session prefix for a given endpoint
(the argument may be a bare hostname or `host:port`). -/
def sesionPrefixFor (endpoint : String) : String :=
  let host := match splitHostPort endpoint with
    | .ok (h, _) => h
    | .error _ => ""
  let endpoint := if host ≠ "" then host else endpoint
  match Endpoints.find? (fun ep => endpoint == ep.hostname) with
  | some ep => ep.sessionTag
  | none => ""

/-- The loop body of `geo.EndpointForSession`, ranging over the endpoint
table in order. -/
def endpointForSessionGo : List GeoEndpoint → String → String × String
  | [], sid => (DefaultEndpoint.hostname, sid)
  | ep :: rest, sid =>
    if 0 < ep.sessionTag.length then
      if strHasPrefix sid ep.sessionTag then
        (ep.hostname, strDrop sid ep.sessionTag.length)
      else endpointForSessionGo rest sid
    else endpointForSessionGo rest sid

/-- `geo.EndpointForSession`: determines which Teleconsole server generated
a given session ID by looking at its prefix; returns the endpoint hostname
and the session ID without the prefix. -/
def endpointForSession (sid : String) : String × String :=
  endpointForSessionGo Endpoints sid

/-! ## lib/identity.go -/

/-- `client.Key` (teleport): an SSH keypair.  Go byte slices are modelled
as strings; a `nil` slice is `none`. -/
structure SSHKey where
  pub : String
  priv : Option String
  cert : Option String
deriving DecidableEq, Repr

/-- `lib.sshLogin`: SSH credentials; the username acts as a label. -/
structure SshLogin where
  username : String
  key : SSHKey
deriving DecidableEq, Repr

/-- `lib.Identity`: a user/account of Teleconsole.  Anonymous identities
use a one-time auto-generated keypair; named identities use user-supplied
keys. -/
structure Identity where
  anonymous : Bool
  username : String
  logins : List SshLogin
deriving DecidableEq, Repr

/-- `integration.User` (teleport): a Teleport user announced to a local
SSH site. -/
structure TeleUser where
  username : String
  key : SSHKey
  allowedLogins : List String
deriving DecidableEq, Repr

/-- `lib.UserMap`: `map[string]*integration.User`.  Modelled as an
association list where an insert overwrites the previous binding of the
same key. -/
abbrev UserMap := List (String × TeleUser)

/-- Go map insert: binds `k` to `v`, dropping any previous binding of `k`. -/
def umInsert (m : UserMap) (k : String) (v : TeleUser) : UserMap :=
  (m.filter (fun p => p.1 ≠ k)) ++ [(k, v)]

/-- `Identity.LoginUsers`: Teleport users suitable for logging into a
locally running Teleport instance; public and private keys are returned. -/
def Identity.loginUsers (i : Identity) : UserMap :=
  i.logins.foldl
    (fun m login =>
      let logins :=
        if i.username ≠ login.username then [i.username, login.username]
        else [i.username]
      umInsert m login.username
        { username := login.username
          key := { pub := login.key.pub, priv := login.key.priv, cert := none }
          allowedLogins := logins })
    []

/-- `Identity.AnnounceUsers`: the users sent along with a new Teleconsole
session; anonymous identities send private keys too, while regular
identities do not. -/
def Identity.announceUsers (i : Identity) : UserMap :=
  let users := i.loginUsers
  if !i.anonymous then
    users.map (fun p => (p.1, { p.2 with key := { p.2.key with priv := none } }))
  else users

/-- `Identity.PrivateKeyFor`: returns the private key of the first login
whose whitespace-trimmed public key equals the whitespace-trimmed
argument. -/
def privateKeyForGo (pk : String) : List SshLogin → Option String
  | [] => none
  | l :: rest =>
    if goTrimSpace l.key.pub = pk then l.key.priv
    else privateKeyForGo pk rest

/-- `Identity.PrivateKeyFor` (entry point, trims the argument once). -/
def Identity.privateKeyFor (i : Identity) (publicKey : String) : Option String :=
  privateKeyForGo (goTrimSpace publicKey) i.logins

/-- The effectful inputs of identity construction: the current OS user,
the freshly generated keypair (`native.New().GenerateKeyPair`) and the
login lists read from files or fetched from Github. -/
structure IdentityEnv where
  osUsername : String
  genPriv : String
  genPub : String
  loginsFromSource : String → Except String (List SshLogin)
  loginFromFile : String → Except String SshLogin

/-- `lib.MakeIdentity`: empty source gives an anonymous identity with a
single one-time login carrying both key halves; otherwise the logins are
read from the identity sources. -/
def makeIdentity (env : IdentityEnv) (idPath : String) : Except String Identity :=
  let anonymous := idPath = ""
  if anonymous then
    .ok { anonymous := true
          username := env.osUsername
          logins := [{ username := env.osUsername
                       key := { pub := env.genPub, priv := some env.genPriv, cert := none } }] }
  else
    match env.loginsFromSource idPath with
    | .error e => .error e
    | .ok logins =>
      .ok { anonymous := false, username := env.osUsername, logins := logins }

/-- `lib.MakeIdentityFromFile`: a named identity with exactly one login
read from the given file. -/
def makeIdentityFromFile (env : IdentityEnv) (idFile : String) : Except String Identity :=
  match env.loginFromFile idFile with
  | .error e => .error e
  | .ok login =>
    .ok { anonymous := false, logins := [login], username := env.osUsername }

/-! ## lib/session.go -/

/-- `integration.InstanceSecrets`, restricted to the field the claims
depend on: the announced users. -/
structure Secrets where
  users : UserMap
deriving DecidableEq

/-- `client.ForwardedPort` (teleport). -/
structure ForwardedPort where
  srcIP : String
  srcPort : Int
  destPort : Int
  destHost : String
deriving DecidableEq, Repr

/-- `lib.Session`: the session descriptor exchanged with the broker. -/
structure GoSession where
  id : String
  tsid : String
  secrets : Secrets
  login : String
  proxyHostPort : String
  nodeHostPort : String
  forwardedPort : Option ForwardedPort
deriving DecidableEq

/-- `lib.Party` of `lib.SessionStats` (the last-active timestamp is left
out: real time is outside the embedding). -/
structure Party where
  fullName : String
  remoteAddr : String
deriving DecidableEq, Repr

/-- `lib.SessionStats`: who has joined the session, plus terminal size. -/
structure SessionStats where
  parties : List Party
  termWidth : Int
  termHeight : Int
deriving DecidableEq, Repr

/-! ## clt/clt.go: findUserFor -/

/-- Go `len(key.Priv) > 0`: a nil or empty private-key slice is empty. -/
def privNonEmpty (k : SSHKey) : Bool :=
  match k.priv with
  | some s => 0 < s.length
  | none => false

/-- The `matchingUserFor` closure inside `clt.findUserFor`: scans the
session users and synthesizes a user from the first one for which the
identity holds a private key. -/
def matchingUserFor (i : Identity) : List (String × TeleUser) → Option TeleUser
  | [] => none
  | (un, user) :: rest =>
    match i.privateKeyFor user.key.pub with
    | some priv =>
      some { username := un
             allowedLogins := user.allowedLogins
             key := { pub := user.key.pub, priv := some priv, cert := user.key.cert } }
    | none => matchingUserFor i rest

/-- The static part of the final `trace.Errorf` format string of
`clt.findUserFor` (everything before the `%s` session id). -/
def keyMismatchFormat : String :=
  "\nTo join this session you must provide a valid SSH key.\n" ++
  "No matching keys were found on your machine in ~/.ssh\n" ++
  "Try specifying an SSH key file with -i flag, for example:\n\n" ++
  "> teleconsole -i ./id_rsa join "

/-- The final error of `clt.findUserFor`, telling the user to pass `-i`. -/
def keyMismatchMsg (sid : String) : String :=
  keyMismatchFormat ++ sid ++ "\n"

/-- Naive substring test (Go `strings.Contains`). -/
def strContainsSub (s sub : String) : Bool :=
  (List.range (s.length + 1)).any (fun k => sub.toList.isPrefixOf (s.toList.drop k))

/-- The `~/.ssh/id_*` loop of `clt.findUserFor`: each glob match is read
as an identity (read errors are ignored) and matched against the session
users. -/
def globLoop (env : IdentityEnv) (users : List (String × TeleUser)) :
    List String → Option TeleUser
  | [] => none
  | fp :: rest =>
    match makeIdentityFromFile env fp with
    | .ok i =>
      match matchingUserFor i users with
      | some u => some u
      | none => globLoop env users rest
    | .error _ => globLoop env users rest

/-- `clt.findUserFor`: picks the user (and keypair) to join a session
with.  `globMatches` stands for `filepath.Glob(home/.ssh/id_*)`. -/
def findUserFor (session : GoSession) (fp : String) (env : IdentityEnv)
    (globMatches : List String) : Except String TeleUser :=
  match session.secrets.users.find? (fun p => privNonEmpty p.2.key) with
  | some p => .ok p.2
  | none =>
    if fp ≠ "" then
      match makeIdentityFromFile env fp with
      | .error e => .error e
      | .ok i =>
        match matchingUserFor i session.secrets.users with
        | some u => .ok u
        | none => .error (keyMismatchMsg session.id)
    else
      match globLoop env session.secrets.users globMatches with
      | some u => .ok u
      | none => .error (keyMismatchMsg session.id)

/-! ## clt/api.go and clt/httperror.go -/

/-- `lib.ServerVersion`: returned by the broker on `/api/version`. -/
structure ServerVersion where
  version : String
  warningMsg : String
deriving DecidableEq, Repr

/-- A modelled HTTP response, with the outcomes of the body reads and
decodes the client may perform on it (`readErr` is a failure of reading
the body; `jsonMessage` is the "message" field of the body decoded as a
JSON map; `serverVersion` and `sessionBody` are the body decoded as the
respective payloads). -/
structure HTTPResp where
  status : Nat
  statusText : String
  location : String
  body : String
  jsonMessage : Option String
  readErr : Option String
  serverVersion : Option ServerVersion
  sessionBody : Option GoSession
deriving DecidableEq

/-- `clt.HTTPClientError`. -/
structure HTTPClientError where
  statusCode : Nat
  statusText : String
  message : String
deriving DecidableEq, Repr

/-- The error value built by `clt.makeHTTPError` for a non-200 response:
the message is the read error if the body could not be read, else the
decoded JSON "message" field, else the raw body. -/
def httpErrorOf (r : HTTPResp) : HTTPClientError :=
  { statusCode := r.status
    statusText := r.statusText
    message :=
      match r.readErr with
      | some e => e
      | none =>
        match r.jsonMessage with
        | some m => m
        | none => r.body }

/-- `clt.makeHTTPError`: converts an HTTP response to an error; a 200
response maps to no error. -/
def makeHTTPError (r : HTTPResp) : Option HTTPClientError :=
  if r.status = 200 then none else some (httpErrorOf r)

/-- `maxRedirects` inside `APIClient.CheckVersion`. -/
def maxRedirects : Nat := 2

/-- The early-return errors of the `CheckVersion` redirect loop. -/
inductive CVErr
  | transport (e : String)
  | invalidRedirect
  | invalidRedirectURL (ep : String)
deriving DecidableEq, Repr

/-- The redirect loop of `APIClient.CheckVersion`.  `responses k` is the
outcome of the `k`-th GET of `/api/version`; `parse` is `url.Parse` on
the Location header; `fuel` is the number of redirects the loop may
still follow (`maxRedirects - i` for loop counter `i`, so the loop runs
while `i <= maxRedirects`).  Returns the list of endpoints a GET was
issued against, the final endpoint, and either an early error or the
response the loop left behind. -/
def cvLoop (parse : String → Option String) (responses : Nat → Except String HTTPResp) :
    Nat → Nat → String → List String × String × Except CVErr HTTPResp
  | i, fuel, ep =>
    match responses i with
    | .error e => ([ep], ep, .error (.transport e))
    | .ok resp =>
      if resp.status = 307 then
        if resp.location = "" then ([ep], ep, .error .invalidRedirect)
        else
          match parse resp.location with
          | none => ([ep], ep, .error (.invalidRedirectURL resp.location))
          | some newEp =>
            match fuel with
            | 0 => ([ep], newEp, .ok resp)
            | f + 1 =>
              let r := cvLoop parse responses (i + 1) f newEp
              (ep :: r.1, r.2)
      else ([ep], ep, .ok resp)

/-- The observable outcome of `CheckVersion`. -/
inductive CVOutcome
  | transportErr (e : String)
  | invalidRedirect
  | invalidRedirectURL (ep : String)
  | httpError (e : HTTPClientError)
  | malformed
  | ok (warningMsg : String)
deriving DecidableEq, Repr

/-- What `CheckVersion` did: the endpoints it sent GETs to (in order),
the endpoint the client is left pointing at, and the outcome. -/
structure CVResult where
  requests : List String
  endpoint : String
  outcome : CVOutcome
deriving DecidableEq

/-- `APIClient.CheckVersion`: follows up to `maxRedirects` 307 redirects,
then maps the last response (non-200 becomes an HTTP error, an
undecodable body is malformed, otherwise the server version is
returned). -/
def checkVersion (parse : String → Option String)
    (responses : Nat → Except String HTTPResp) (ep0 : String) : CVResult :=
  let r := cvLoop parse responses 0 maxRedirects ep0
  let outcome : CVOutcome :=
    match r.2.2 with
    | .error (.transport e) => .transportErr e
    | .error .invalidRedirect => .invalidRedirect
    | .error (.invalidRedirectURL l) => .invalidRedirectURL l
    | .ok resp =>
      if resp.status ≠ 200 then .httpError (httpErrorOf resp)
      else
        match resp.serverVersion with
        | none => .malformed
        | some sv => .ok sv.warningMsg
  ⟨r.1, r.2.1, outcome⟩

/-- The observable outcome of `PublishSessionID`. -/
inductive PubOutcome
  | panics
  | ok
  | httpError (e : HTTPClientError)
deriving DecidableEq, Repr

/-- `APIClient.PublishSessionID` (`clt/api.go`): POSTs the internal
session id and checks `resp.StatusCode`.  The function reads
`resp.StatusCode` (and defers `resp.Body.Close()`) before ever checking
`err`; on a transport-level POST failure Go's `http.Client.Do` returns a
nil response, so both dereferences hit a nil pointer and the Go runtime
panics — modelled by the `panics` outcome. -/
def publishSessionID (postResult : Except String HTTPResp) : PubOutcome :=
  match postResult with
  | .error _ => .panics
  | .ok resp => if resp.status ≠ 200 then .httpError (httpErrorOf resp) else .ok

/-- The `hextable` constant of `encoding/hex`. -/
def hextable : String := "0123456789abcdef"

/-- The lowercase hexadecimal digits of `encoding/hex`. -/
def hexDigits : List Char := hextable.toList

/-- `encoding/hex` encoding of one byte: two lowercase hex digits. -/
def hexEncodeByte (b : Nat) : List Char :=
  [hexDigits.getD (b / 16) '0', hexDigits.getD (b % 16) '0']

/-- `hex.EncodeToString` over a byte list. -/
def hexEncode (bs : List Nat) : String :=
  String.mk (List.flatten (bs.map hexEncodeByte))

/-- teleport `utils.CryptoRandomHex n`: hex-encodes `n` bytes drawn from
the crypto-strong random source.  `rand n` is the byte-draw oracle: the
list of `n` bytes the source returned. -/
def cryptoRandomHex (rand : Nat → List Nat) (n : Nat) : String :=
  hexEncode (rand n)

/-- What `RequestNewSession` did: the session id it stored in the client
(`this.SessionID`), the path and session descriptor it POSTed, and the
call's outcome. -/
structure RNSResult where
  sessionID : String
  postedPath : String
  postedSession : GoSession
  outcome : Except String GoSession
deriving DecidableEq

/-- `APIClient.RequestNewSession` (`clt/api.go`): generates a random
session id with `utils.CryptoRandomHex 20`, records it in the client,
POSTs the session descriptor to `/api/sessions` and returns the decoded
echo.  `post` is the transport oracle. -/
def requestNewSession (rand : Nat → List Nat)
    (post : String → GoSession → Except String HTTPResp)
    (login : String) (secrets : Secrets) (hostname portSSH : String)
    (fport : Option ForwardedPort) : RNSResult :=
  let sessionID := cryptoRandomHex rand 20
  let sess : GoSession :=
    { id := sessionID
      tsid := ""
      secrets := secrets
      login := login
      proxyHostPort := ""
      nodeHostPort := joinHostPort hostname portSSH
      forwardedPort := fport }
  let outcome : Except String GoSession :=
    match post "/api/sessions" sess with
    | .error e => .error e
    | .ok resp =>
      if resp.status ≠ 200 then .error (httpErrorOf resp).message
      else
        match resp.sessionBody with
        | none => .error "malformed session in response"
        | some s => .ok s
  { sessionID := sessionID
    postedPath := "/api/sessions"
    postedSession := sess
    outcome := outcome }

/-! ## clt/clt.go: the OnShellCreated stats poll loop -/

/-- The visible steps of the tunnel-detection loop: a sleep of
`SyncRefreshInterval` (one second), or the `i`-th `GetSessionStats`
poll. -/
inductive PollEvent
  | sleep (seconds : Nat)
  | poll (i : Nat)
deriving DecidableEq, Repr

/-- `clt.SyncRefreshInterval` (`time.Second`), in seconds. -/
def syncRefreshIntervalSec : Nat := 1

/-- `const attempts = 10` inside the `OnShellCreated` callback. -/
def statsAttempts : Nat := 10

/-- The `brokenSessionError` message of the callback. -/
def brokenSessionMsg : String :=
  "SSH tunnel cannot be established, please try again."

/-- What the `OnShellCreated` callback did: its `(exit, err)` return
values, the Teleconsole-ID line it printed (if any), and the trace of
sleeps and polls it performed. -/
structure CBResult where
  exit : Bool
  errMsg : Option String
  printed : Option String
  events : List PollEvent
deriving DecidableEq

/-- The `for i := 0; i < attempts; i++` loop of the callback: sleep, poll
the broker for session stats, stop on the first non-empty parties list
(printing the visible session id) or on a poll error, and give up after
the attempts are exhausted. -/
def statsLoop (polls : Nat → Except String SessionStats) (printedID : String) :
    Nat → Nat → CBResult
  | _, 0 => ⟨true, some brokenSessionMsg, none, []⟩
  | i, fuel + 1 =>
    let ev : List PollEvent := [.sleep syncRefreshIntervalSec, .poll i]
    match polls i with
    | .error _ => ⟨true, some brokenSessionMsg, none, ev⟩
    | .ok stats =>
      if 0 < stats.parties.length then ⟨false, none, some printedID, ev⟩
      else
        let r := statsLoop polls printedID (i + 1) fuel
        ⟨r.exit, r.errMsg, r.printed, ev ++ r.events⟩

/-- The event trace of `n` consecutive loop iterations starting at poll
index `start`: each poll is preceded by a one-second sleep. -/
def pollTrace (start : Nat) : Nat → List PollEvent
  | 0 => []
  | n + 1 =>
    PollEvent.sleep syncRefreshIntervalSec :: PollEvent.poll start :: pollTrace (start + 1) n

/-- How many polls a trace contains. -/
def countPolls (evs : List PollEvent) : Nat :=
  (evs.filter (fun e => match e with | .poll _ => true | _ => false)).length

/-- The `OnShellCreated` callback of `clt.StartBroadcast`: publish the
session, then run the stats-poll loop; the printed Teleconsole ID is the
endpoint's session prefix concatenated with the web session id. -/
def onShellCreated (publish : Except String Unit)
    (polls : Nat → Except String SessionStats)
    (endpointHost sessionID : String) : CBResult :=
  match publish with
  | .error e => ⟨true, some e, none, []⟩
  | .ok _ => statsLoop polls (sesionPrefixFor endpointHost ++ sessionID) 0 statsAttempts

/-! ## lib/net.go: ParseForwardAddr (and the slice of net/url it uses) -/

/-- ASCII letter test of `url.getScheme`. -/
def isAlphaCh (c : Char) : Bool :=
  ('a' ≤ c && c ≤ 'z') || ('A' ≤ c && c ≤ 'Z')

/-- ASCII digit test. -/
def isDigitCh (c : Char) : Bool :=
  '0' ≤ c && c ≤ '9'

/-- The scanning loop of `url.getScheme`: `acc` is the scheme scanned so
far (the loop index is `acc.length`). -/
def getSchemeAux (full : String) : List Char → List Char → Except String (String × String)
  | _, [] => .ok ("", full)
  | acc, c :: rest =>
    if isAlphaCh c then getSchemeAux full (acc ++ [c]) rest
    else if isDigitCh c || c = '+' || c = '-' || c = '.' then
      if acc = [] then .ok ("", full)
      else getSchemeAux full (acc ++ [c]) rest
    else if c = ':' then
      if acc = [] then .error "missing protocol scheme"
      else .ok (String.mk acc, String.mk rest)
    else .ok ("", full)

/-- `url.getScheme`: splits a raw URL into its scheme and the rest. -/
def getScheme (s : String) : Except String (String × String) :=
  getSchemeAux s [] s.toList

/-- ASCII lowercasing (scheme characters are ASCII, so this agrees with
the `strings.ToLower` applied to the scheme by `url.Parse`). -/
def toLowerAsciiChar (c : Char) : Char :=
  if 'A' ≤ c && c ≤ 'Z' then Char.ofNat (c.toNat + 32) else c

/-- ASCII `strings.ToLower`. -/
def strToLower (s : String) : String :=
  String.mk (s.toList.map toLowerAsciiChar)

/-- The slice of `url.URL` that `lib.ParseForwardAddr` consumes. -/
structure GoURL where
  scheme : String
  host : String
deriving DecidableEq, Repr

/-- `url.parseHost`-style validation: an optional `:digits` port may
follow the last colon (bracketed IPv6 hosts keep their brackets). -/
def parseHostGo (h : List Char) : Except String String :=
  if h.head? = some '[' then
    match charLastIndexOf h ']' with
    | none => .error "missing right bracket in host"
    | some i =>
      match h.drop (i + 1) with
      | [] => .ok (String.mk h)
      | ':' :: p => if p.all isDigitCh then .ok (String.mk h) else .error "invalid port"
      | _ => .error "invalid character in host"
  else
    match charLastIndexOf h ':' with
    | none => .ok (String.mk h)
    | some i =>
      if (h.drop (i + 1)).all isDigitCh then .ok (String.mk h) else .error "invalid port"

/-- `url.Parse`, restricted to the fields `ParseForwardAddr` reads: the
(lowercased) scheme, and the host, which is non-empty only when the
rest after the scheme starts with `//`. -/
def urlParse (raw : String) : Except String GoURL :=
  match getScheme raw with
  | .error e => .error e
  | .ok (scheme, rest) =>
    let scheme := strToLower scheme
    if strHasPrefix rest "//" then
      let restTail := rest.toList.drop 2
      let authority := restTail.takeWhile (fun c => c ≠ '/')
      let hostPart :=
        match charLastIndexOf authority '@' with
        | some i => authority.drop (i + 1)
        | none => authority
      match parseHostGo hostPart with
      | .error e => .error e
      | .ok host => .ok { scheme := scheme, host := host }
    else .ok { scheme := scheme, host := "" }

/-- `strconv.Atoi`: an optional sign followed by at least one decimal
digit (the inputs of interest are far below the 64-bit range check). -/
def atoi (s : String) : Except String Int :=
  let p : Bool × List Char :=
    match s.toList with
    | '-' :: rest => (true, rest)
    | '+' :: rest => (false, rest)
    | l => (false, l)
  if p.2 = [] then .error "invalid syntax"
  else if p.2.all isDigitCh then
    let n : Nat := p.2.foldl (fun acc c => acc * 10 + (c.toNat - '0'.toNat)) 0
    .ok (if p.1 then -(n : Int) else (n : Int))
  else .error "invalid syntax"

/-- `lib.ParseForwardAddr`: understands `"5000"` (port only, localhost),
`"host:port"`, `"http://host"` (port 80) and `"https://host"` (port 443). -/
def parseForwardAddr (spec : String) : Except String ForwardedPort :=
  match urlParse spec with
  | .error e => .error e
  | .ok u =>
    if u.host ≠ "" ∧ u.scheme = "http" then
      .ok { srcIP := "", srcPort := 0, destPort := 80, destHost := u.host }
    else if u.host ≠ "" ∧ u.scheme = "https" then
      .ok { srcIP := "", srcPort := 0, destPort := 443, destHost := u.host }
    else
      match atoi spec with
      | .ok n => .ok { srcIP := "", srcPort := 0, destPort := n, destHost := "localhost" }
      | .error _ =>
        match splitHostPort spec with
        | .error e => .error e
        | .ok (host, port) =>
          match atoi port with
          | .error e => .error e
          | .ok n => .ok { srcIP := "", srcPort := 0, destPort := n, destHost := host }

/-! ## Concrete instances (used to instantiate the theorems) -/

/-- A concrete identity environment. -/
def envC : IdentityEnv :=
  { osUsername := "alice"
    genPriv := "PRIV"
    genPub := "PUB"
    loginsFromSource := fun _ => .ok [⟨"bob", ⟨"pubB", none, none⟩⟩]
    loginFromFile := fun f =>
      if f = "/home/alice/.ssh/id_rsa" then .ok ⟨"id_rsa", ⟨"pubA\n", some "privA", none⟩⟩
      else .error "no such file" }

/-- A concrete named identity (as built from a key file). -/
def identNamedC : Identity :=
  { anonymous := false
    username := "alice"
    logins := [⟨"bob", ⟨"pubB", some "privB", none⟩⟩] }

/-- A concrete anonymous identity. -/
def identAnonC : Identity :=
  { anonymous := true
    username := "alice"
    logins := [⟨"alice", ⟨"PUB", some "PRIV", none⟩⟩] }

/-- The identity `envC.loginFromFile` yields for the `id_rsa` file. -/
def identFileC : Identity :=
  { anonymous := false
    username := "alice"
    logins := [⟨"id_rsa", ⟨"pubA\n", some "privA", none⟩⟩] }

/-- A concrete anonymous session: one user still carrying its private key. -/
def sessAnonC : GoSession :=
  { id := "c0ffee"
    tsid := ""
    secrets := ⟨[("alice", ⟨"alice", ⟨"PUB", some "PRIV", none⟩, ["alice"]⟩)]⟩
    login := "alice"
    proxyHostPort := ""
    nodeHostPort := "localhost:3022"
    forwardedPort := none }

/-- A concrete named session whose announced user matches `identFileC`. -/
def sessNamedC : GoSession :=
  { id := "beef1"
    tsid := ""
    secrets := ⟨[("id_rsa", ⟨"id_rsa", ⟨"pubA", none, none⟩, ["alice", "id_rsa"]⟩)]⟩
    login := "alice"
    proxyHostPort := ""
    nodeHostPort := "localhost:3022"
    forwardedPort := none }

/-- A concrete 307 response with the given Location header. -/
def respRedirC (loc : String) : HTTPResp :=
  ⟨307, "307 Temporary Redirect", loc, "", none, none, none, none⟩

/-- A concrete 200 response carrying a server version. -/
def respVerC : HTTPResp :=
  ⟨200, "200 OK", "", "", none, none, some ⟨"1.0", ""⟩, none⟩

/-- The Location served on the `i`-th request by the always-redirecting
broker. -/
def redirLocC (i : Nat) : String :=
  if i = 0 then "https://us2.example" else
  if i = 1 then "https://us3.example" else "https://us4.example"

/-- A broker that answers every request with a 307. -/
def responsesRedirC : Nat → Except String HTTPResp :=
  fun i => .ok (respRedirC (redirLocC i))

/-- A broker that redirects once and then serves the version. -/
def responsesOkC : Nat → Except String HTTPResp :=
  fun i => if i = 0 then .ok (respRedirC "https://us2.example") else .ok respVerC

/-- A broker that serves a 307 without a Location header. -/
def responsesNoLocC : Nat → Except String HTTPResp :=
  fun _ => .ok (respRedirC "")

/-- A concrete 404 response with a JSON error body. -/
def resp404C : HTTPResp :=
  ⟨404, "404 Not Found", "", "error body", some "missing session", none, none, none⟩

/-- Session stats with no parties. -/
def statsEmptyC : SessionStats := ⟨[], 0, 0⟩

/-- Session stats with one party. -/
def statsOneC : SessionStats := ⟨[⟨"", "1.2.3.4:555"⟩], 80, 25⟩

/-- A concrete named session no local key matches. -/
def sessNamed2C : GoSession :=
  { id := "beef2"
    tsid := ""
    secrets := ⟨[("id_rsa", ⟨"id_rsa", ⟨"pubZ", none, none⟩, ["alice", "id_rsa"]⟩)]⟩
    login := "alice"
    proxyHostPort := ""
    nodeHostPort := "localhost:3022"
    forwardedPort := none }

/-! ## Helper lemmas -/

theorem strToList_append (a b : String) : (a ++ b).toList = a.toList ++ b.toList := by
  simp [String.toList]

theorem strHasPrefix_append (p s : String) : strHasPrefix (p ++ s) p = true := by
  unfold strHasPrefix
  rw [strToList_append]
  exact List.isPrefixOf_iff_prefix.mpr (List.prefix_append _ _)

theorem strDrop_append (p s : String) : strDrop (p ++ s) p.length = s := by
  unfold strDrop
  rw [strToList_append]
  show String.mk ((p.toList ++ s.toList).drop p.toList.length) = s
  rw [List.drop_left]
  rfl

theorem len_eu : ("eu" : String).length = 2 := rfl

theorem len_as : ("as" : String).length = 2 := rfl

theorem len_empty_str : ("" : String).length = 0 := rfl

theorem strContainsSub_of_left (a b sub : String) (h : strContainsSub a sub = true) :
    strContainsSub (a ++ b) sub = true := by
  unfold strContainsSub at h ⊢
  rw [List.any_eq_true] at h ⊢
  obtain ⟨k, hk, hpre⟩ := h
  refine ⟨k, ?_, ?_⟩
  · rw [List.mem_range] at hk ⊢
    have : a.length ≤ (a ++ b).length := by
      rw [String.length_append]
      omega
    omega
  · rw [List.mem_range] at hk
    rw [List.isPrefixOf_iff_prefix] at hpre ⊢
    rw [strToList_append]
    rw [List.drop_append_of_le_length (by
      have : a.toList.length = a.length := rfl
      omega)]
    exact hpre.trans (List.prefix_append _ _)

set_option maxRecDepth 4000 in
theorem keyMismatchMsg_contains_dash_i (sid : String) :
    strContainsSub (keyMismatchMsg sid) "teleconsole -i" = true := by
  unfold keyMismatchMsg
  apply strContainsSub_of_left
  apply strContainsSub_of_left
  decide

theorem matchingUserFor_eq_none (i : Identity) (users : List (String × TeleUser)) :
    matchingUserFor i users = none ↔
      ∀ p ∈ users, i.privateKeyFor p.2.key.pub = none := by
  induction users with
  | nil => simp [matchingUserFor]
  | cons q rest ih =>
    obtain ⟨un, user⟩ := q
    cases h : i.privateKeyFor user.key.pub with
    | some priv => simp [matchingUserFor, h]
    | none => simp [matchingUserFor, h, ih]

theorem privateKeyFor_eq_find (i : Identity) (pub : String) :
    i.privateKeyFor pub =
      (i.logins.find? (fun l => goTrimSpace l.key.pub == goTrimSpace pub)).bind
        (fun l => l.key.priv) := by
  unfold Identity.privateKeyFor
  induction i.logins with
  | nil => simp [privateKeyForGo]
  | cons l rest ih =>
    by_cases h : goTrimSpace l.key.pub = goTrimSpace pub
    · rw [List.find?_cons_of_pos _ (by simpa using h)]
      simp [privateKeyForGo, h]
    · rw [List.find?_cons_of_neg _ (by simpa using h)]
      simp [privateKeyForGo, h, ih]

theorem statsLoop_all_empty (polls : Nat → Except String SessionStats) (pid : String) :
    ∀ fuel start,
      (∀ t < fuel, ∃ s, polls (start + t) = .ok s ∧ s.parties = []) →
      statsLoop polls pid start fuel =
        ⟨true, some brokenSessionMsg, none, pollTrace start fuel⟩ := by
  intro fuel
  induction fuel with
  | zero =>
    intro start _
    rfl
  | succ f ih =>
    intro start h
    obtain ⟨s0, hp0, he0⟩ := h 0 (by omega)
    rw [Nat.add_zero] at hp0
    have hr := ih (start + 1) (fun t ht => by
      obtain ⟨s, hs1, hs2⟩ := h (t + 1) (by omega)
      refine ⟨s, ?_, hs2⟩
      have heq : start + 1 + t = start + (t + 1) := by omega
      rw [heq]
      exact hs1)
    simp [statsLoop, hp0, he0, hr, pollTrace]

theorem statsLoop_success (polls : Nat → Except String SessionStats) (pid : String) :
    ∀ j fuel start stats,
      j < fuel →
      (∀ t < j, ∃ s, polls (start + t) = .ok s ∧ s.parties = []) →
      polls (start + j) = .ok stats → stats.parties ≠ [] →
      statsLoop polls pid start fuel =
        ⟨false, none, some pid, pollTrace start (j + 1)⟩ := by
  intro j
  induction j with
  | zero =>
    intro fuel start stats hlt hemp hpoll hne
    obtain ⟨f, rfl⟩ : ∃ f, fuel = f + 1 := ⟨fuel - 1, by omega⟩
    rw [Nat.add_zero] at hpoll
    have hlen : 0 < stats.parties.length := by
      cases hp : stats.parties with
      | nil => exact absurd hp hne
      | cons a l => simp [hp]
    simp [statsLoop, hpoll, hlen, pollTrace]
  | succ k ih =>
    intro fuel start stats hlt hemp hpoll hne
    obtain ⟨f, rfl⟩ : ∃ f, fuel = f + 1 := ⟨fuel - 1, by omega⟩
    obtain ⟨s0, hp0, he0⟩ := hemp 0 (by omega)
    rw [Nat.add_zero] at hp0
    have hr := ih f (start + 1) stats (by omega)
      (fun t ht => by
        obtain ⟨s, hs1, hs2⟩ := hemp (t + 1) (by omega)
        refine ⟨s, ?_, hs2⟩
        have heq : start + 1 + t = start + (t + 1) := by omega
        rw [heq]
        exact hs1)
      (by
        have heq : start + 1 + k = start + (k + 1) := by omega
        rw [heq]
        exact hpoll)
      hne
    simp [statsLoop, hp0, he0, hr, pollTrace]

theorem countPolls_pollTrace (n : Nat) : ∀ start, countPolls (pollTrace start n) = n := by
  induction n with
  | zero =>
    intro start
    rfl
  | succ k ih =>
    intro start
    simp only [pollTrace, countPolls, List.filter] at ih ⊢
    rw [List.length_cons]
    rw [ih (start + 1)]

theorem statsLoop_poll_bound (polls : Nat → Except String SessionStats) (pid : String) :
    ∀ fuel start, countPolls (statsLoop polls pid start fuel).events ≤ fuel := by
  intro fuel
  induction fuel with
  | zero =>
    intro start
    simp [statsLoop, countPolls]
  | succ f ih =>
    intro start
    cases hp : polls start with
    | error e =>
      simp [statsLoop, hp, countPolls, List.filter]
    | ok stats =>
      by_cases hl : 0 < stats.parties.length
      · simp [statsLoop, hp, hl, countPolls, List.filter]
      · have hrec := ih (start + 1)
        simp only [statsLoop, hp, hl, if_neg hl, countPolls, List.filter_append,
          List.length_append] at hrec ⊢
        simp only [List.filter, List.append_eq, List.nil_append, List.length_cons]
        omega

theorem cvLoop_len (parse : String → Option String) (responses : Nat → Except String HTTPResp) :
    ∀ fuel i ep, (cvLoop parse responses i fuel ep).1.length ≤ fuel + 1 := by
  intro fuel
  induction fuel with
  | zero =>
    intro i ep
    rw [cvLoop]
    cases hr : responses i with
    | error e => simp
    | ok resp =>
      by_cases h307 : resp.status = 307
      · by_cases hloc : resp.location = ""
        · simp [h307, hloc]
        · cases hp : parse resp.location with
          | none => simp [h307, hloc, hp]
          | some newEp => simp [h307, hloc, hp]
      · simp [h307]
  | succ f ih =>
    intro i ep
    rw [cvLoop]
    cases hr : responses i with
    | error e => simp
    | ok resp =>
      by_cases h307 : resp.status = 307
      · by_cases hloc : resp.location = ""
        · simp [h307, hloc]
        · cases hp : parse resp.location with
          | none => simp [h307, hloc, hp]
          | some newEp =>
            have hrec := ih (i + 1) newEp
            simp [h307, hloc, hp]
            omega
      · simp [h307]

theorem hexEncode_length (bs : List Nat) : (hexEncode bs).length = 2 * bs.length := by
  show (List.flatten (bs.map hexEncodeByte)).length = 2 * bs.length
  induction bs with
  | nil => rfl
  | cons b rest ih =>
    simp only [List.map_cons, List.flatten_cons, List.length_append, List.length_cons, ih]
    have hb : (hexEncodeByte b).length = 2 := rfl
    omega

theorem hexDigits_getD_mem (n : Nat) : hexDigits.getD n '0' ∈ hexDigits := by
  by_cases h : n < hexDigits.length
  · rw [List.getD_eq_getElem hexDigits '0' h]
    exact List.getElem_mem h
  · rw [List.getD_eq_default hexDigits '0' (by omega)]
    decide

theorem hexEncode_chars (bs : List Nat) : ∀ c ∈ (hexEncode bs).toList, c ∈ hexDigits := by
  intro c hc
  have hm : (hexEncode bs).toList = List.flatten (bs.map hexEncodeByte) := rfl
  rw [hm, List.mem_flatten] at hc
  obtain ⟨l, hl, hcl⟩ := hc
  rw [List.mem_map] at hl
  obtain ⟨b, _hb, rfl⟩ := hl
  simp only [hexEncodeByte, List.mem_cons, List.not_mem_nil, or_false] at hcl
  rcases hcl with rfl | rfl
  · exact hexDigits_getD_mem _
  · exact hexDigits_getD_mem _

theorem eu_as_disjoint (sid : String) :
    ¬(strHasPrefix sid "eu" = true ∧ strHasPrefix sid "as" = true) := by
  rintro ⟨h1, h2⟩
  unfold strHasPrefix at h1 h2
  rw [List.isPrefixOf_iff_prefix] at h1 h2
  obtain ⟨t1, he⟩ := h1
  obtain ⟨t2, ha⟩ := h2
  have heu : ("eu" : String).toList = ['e', 'u'] := rfl
  have has : ("as" : String).toList = ['a', 's'] := rfl
  rw [heu] at he
  rw [has] at ha
  rw [← he] at ha
  have : 'a' = 'e' := List.head_eq_of_cons_eq ha
  exact absurd this (by decide)

/-! ## Claim theorems -/

/-- Claim C6: for every session id `sid`, `endpoint_for_session` returns
the endpoint whose non-empty session prefix matches `sid` (matching
prefixes are unique in the table, hence trivially the longest match),
together with `sid` with that prefix stripped; if no non-empty prefix
matches, it returns the default endpoint hostname and `sid` unchanged. -/
theorem endpointForSession_spec (sid : String) :
    (∀ ep ∈ Endpoints, ep.sessionTag ≠ "" → strHasPrefix sid ep.sessionTag = true →
      endpointForSession sid = (ep.hostname, strDrop sid ep.sessionTag.length)) ∧
    ((∀ ep ∈ Endpoints, ep.sessionTag ≠ "" → strHasPrefix sid ep.sessionTag = false) →
      endpointForSession sid = (DefaultEndpoint.hostname, sid)) := by
  constructor
  · intro ep hmem htag hpre
    simp [Endpoints, DefaultEndpoint] at hmem
    rcases hmem with rfl | rfl | rfl
    · exact absurd rfl htag
    · replace hpre : strHasPrefix sid "eu" = true := hpre
      simp [endpointForSession, Endpoints, DefaultEndpoint, DefaultServerHost,
        endpointForSessionGo, hpre, len_eu, len_empty_str]
    · replace hpre : strHasPrefix sid "as" = true := hpre
      have heu : strHasPrefix sid "eu" = false := by
        cases h : strHasPrefix sid "eu"
        · rfl
        · exact absurd ⟨h, hpre⟩ (eu_as_disjoint sid)
      simp [endpointForSession, Endpoints, DefaultEndpoint, DefaultServerHost,
        endpointForSessionGo, hpre, heu, len_eu, len_as, len_empty_str]
  · intro hall
    have heu : strHasPrefix sid "eu" = false :=
      hall ⟨"eu.teleconsole.com", "eu"⟩ (by decide) (by decide)
    have has : strHasPrefix sid "as" = false :=
      hall ⟨"as.teleconsole.com", "as"⟩ (by decide) (by decide)
    simp [endpointForSession, Endpoints, DefaultEndpoint, endpointForSessionGo, heu, has,
      len_eu, len_as, len_empty_str]

/-- Claim C6 witness: the two regimes at concrete session ids. -/
theorem endpointForSession_spec_check :
    endpointForSession "eu555" = ("eu.teleconsole.com", "555") ∧
    endpointForSession "5555" = (DefaultEndpoint.hostname, "5555") := by
  constructor
  · have h := (endpointForSession_spec "eu555").1 ⟨"eu.teleconsole.com", "eu"⟩
      (by decide) (by decide) (by decide)
    exact h.trans (by decide)
  · exact (endpointForSession_spec "5555").2 (by decide)

/-- Claim C5 counterexample: for the default endpoint host and the
non-empty session id "eu5", the round trip does not return the pair
`(default host, "eu5")`: the "eu" prefix of the sid itself wins and the
call routes to the European endpoint instead. -/
theorem endpoint_roundtrip_cex :
    DefaultServerHost ∈ Endpoints.map GeoEndpoint.hostname ∧
    "eu5" ≠ "" ∧
    endpointForSession (sesionPrefixFor DefaultServerHost ++ "eu5") ≠ (DefaultServerHost, "eu5") ∧
    endpointForSession (sesionPrefixFor DefaultServerHost ++ "eu5") = ("eu.teleconsole.com", "5") := by
  decide

/-- Claim C5 (amended): for every endpoint host `h` in the static table
and every non-empty session id `sid` that does not itself begin with the
non-empty session prefix of any table entry (true in particular for
40-hex-char web session ids, since every prefix contains a non-hex
character), `endpoint_for_session (prefix_for h ++ sid)` returns exactly
`(h, sid)`. -/
theorem endpoint_roundtrip_amended (ep : GeoEndpoint) (sid : String)
    (hmem : ep ∈ Endpoints) (_hne : sid ≠ "")
    (hclash : ∀ e ∈ Endpoints, e.sessionTag ≠ "" → strHasPrefix sid e.sessionTag = false) :
    endpointForSession (sesionPrefixFor ep.hostname ++ sid) = (ep.hostname, sid) := by
  have heu : strHasPrefix sid "eu" = false :=
    hclash ⟨"eu.teleconsole.com", "eu"⟩ (by decide) (by decide)
  have has : strHasPrefix sid "as" = false :=
    hclash ⟨"as.teleconsole.com", "as"⟩ (by decide) (by decide)
  simp [Endpoints, DefaultEndpoint, DefaultServerHost] at hmem
  rcases hmem with rfl | rfl | rfl
  · have hpfx : sesionPrefixFor "teleconsole.com" = "" := by decide
    show endpointForSession (sesionPrefixFor "teleconsole.com" ++ sid) = ("teleconsole.com", sid)
    rw [hpfx]
    show endpointForSession sid = ("teleconsole.com", sid)
    simp [endpointForSession, Endpoints, DefaultEndpoint, DefaultServerHost,
      endpointForSessionGo, heu, has, len_eu, len_as, len_empty_str]
  · have hpfx : sesionPrefixFor "eu.teleconsole.com" = "eu" := by decide
    show endpointForSession (sesionPrefixFor "eu.teleconsole.com" ++ sid) = ("eu.teleconsole.com", sid)
    rw [hpfx]
    have h1 : strHasPrefix ("eu" ++ sid) "eu" = true := strHasPrefix_append "eu" sid
    have h2 : strDrop ("eu" ++ sid) 2 = sid := strDrop_append "eu" sid
    simp [endpointForSession, Endpoints, DefaultEndpoint, DefaultServerHost,
      endpointForSessionGo, h1, h2, len_eu, len_empty_str]
  · have hpfx : sesionPrefixFor "as.teleconsole.com" = "as" := by decide
    show endpointForSession (sesionPrefixFor "as.teleconsole.com" ++ sid) = ("as.teleconsole.com", sid)
    rw [hpfx]
    have h1 : strHasPrefix ("as" ++ sid) "as" = true := strHasPrefix_append "as" sid
    have h2 : strDrop ("as" ++ sid) 2 = sid := strDrop_append "as" sid
    have heu2 : strHasPrefix ("as" ++ sid) "eu" = false := by
      cases h : strHasPrefix ("as" ++ sid) "eu"
      · rfl
      · exact absurd ⟨h, h1⟩ (eu_as_disjoint ("as" ++ sid))
    simp [endpointForSession, Endpoints, DefaultEndpoint, DefaultServerHost,
      endpointForSessionGo, h1, h2, heu2, len_eu, len_as, len_empty_str]

/-- Claim C5 (amended) witness: the round trip at each endpoint host with
a hex session id. -/
theorem endpoint_roundtrip_amended_check :
    endpointForSession (sesionPrefixFor "eu.teleconsole.com" ++ "42") = ("eu.teleconsole.com", "42") ∧
    endpointForSession (sesionPrefixFor "teleconsole.com" ++ "42") = ("teleconsole.com", "42") :=
  ⟨endpoint_roundtrip_amended ⟨"eu.teleconsole.com", "eu"⟩ "42" (by decide) (by decide) (by decide),
   endpoint_roundtrip_amended ⟨"teleconsole.com", ""⟩ "42" (by decide) (by decide) (by decide)⟩

/-- Claim C1: every user announced by a non-anonymous identity carries a
nil private key; an anonymous identity announces its users exactly as it
logs in with them, keeping both key halves — in particular the identity
minted by `make_identity ""` announces its generated keypair whole, and
identities built by `make_identity` with a non-empty source or by
`make_identity_from_file` are never anonymous. -/
theorem announceUsers_private_keys (env : IdentityEnv) (i : Identity) :
    (i.anonymous = false → ∀ p ∈ i.announceUsers, p.2.key.priv = none) ∧
    (i.anonymous = true → i.announceUsers = i.loginUsers) ∧
    (makeIdentity env "" = .ok i →
      i.anonymous = true ∧
      ∀ p ∈ i.announceUsers, p.2.key.pub = env.genPub ∧ p.2.key.priv = some env.genPriv) ∧
    (∀ src, src ≠ "" → makeIdentity env src = .ok i → i.anonymous = false) ∧
    (∀ f, makeIdentityFromFile env f = .ok i → i.anonymous = false) := by
  refine ⟨?_, ?_, ?_, ?_, ?_⟩
  · intro hanon p hp
    unfold Identity.announceUsers at hp
    rw [hanon] at hp
    simp only [Bool.not_false, if_true] at hp
    rw [List.mem_map] at hp
    obtain ⟨q, _hq, rfl⟩ := hp
    rfl
  · intro hanon
    unfold Identity.announceUsers
    rw [hanon]
    simp
  · intro hmk
    simp [makeIdentity] at hmk
    rw [← hmk]
    refine ⟨rfl, ?_⟩
    intro p hp
    simp [Identity.announceUsers, Identity.loginUsers, umInsert, List.foldl] at hp
    rw [hp]
    exact ⟨rfl, rfl⟩
  · intro src hsrc hmk
    simp only [makeIdentity, if_neg hsrc] at hmk
    cases h : env.loginsFromSource src with
    | error e =>
      rw [h] at hmk
      exact absurd hmk (by simp)
    | ok logins =>
      rw [h] at hmk
      rw [Except.ok.injEq] at hmk
      rw [← hmk]
  · intro f hmk
    unfold makeIdentityFromFile at hmk
    cases h : env.loginFromFile f with
    | error e =>
      rw [h] at hmk
      exact absurd hmk (by simp)
    | ok login =>
      rw [h] at hmk
      rw [Except.ok.injEq] at hmk
      rw [← hmk]

/-- Claim C1 witness: the two regimes at concrete identities. -/
theorem announceUsers_private_keys_check :
    (⟨"bob", ⟨"pubB", none, none⟩, ["alice", "bob"]⟩ : TeleUser).key.priv = none ∧
    identAnonC.announceUsers = identAnonC.loginUsers :=
  ⟨(announceUsers_private_keys envC identNamedC).1 rfl
      ("bob", ⟨"bob", ⟨"pubB", none, none⟩, ["alice", "bob"]⟩) (by decide),
   (announceUsers_private_keys envC identAnonC).2.1 rfl⟩

/-- Claim C4: `check_version` follows at most 2 server-issued 307
redirects (so at most 3 GETs are issued), each time rewriting the
endpoint to the parsed Location header; a 307 with an empty Location is
rejected with an error; and a third consecutive 307 is not followed —
the call fails with the HTTP-status error of that 307 response. -/
theorem checkVersion_redirect_spec (parse : String → Option String)
    (responses : Nat → Except String HTTPResp) (ep0 : String) :
    (checkVersion parse responses ep0).requests.length ≤ maxRedirects + 1 ∧
    (∀ r0 r1 r2 P0 P1 P2,
      responses 0 = .ok r0 → r0.status = 307 → r0.location ≠ "" → parse r0.location = some P0 →
      responses 1 = .ok r1 → r1.status = 307 → r1.location ≠ "" → parse r1.location = some P1 →
      responses 2 = .ok r2 → r2.status = 307 → r2.location ≠ "" → parse r2.location = some P2 →
      checkVersion parse responses ep0 =
        ⟨[ep0, P0, P1], P2, .httpError (httpErrorOf r2)⟩ ∧
      (httpErrorOf r2).statusCode = 307) ∧
    (∀ r0, responses 0 = .ok r0 → r0.status = 307 → r0.location = "" →
      checkVersion parse responses ep0 = ⟨[ep0], ep0, .invalidRedirect⟩) ∧
    (∀ r0 r1 P0 sv,
      responses 0 = .ok r0 → r0.status = 307 → r0.location ≠ "" → parse r0.location = some P0 →
      responses 1 = .ok r1 → r1.status = 200 → r1.serverVersion = some sv →
      checkVersion parse responses ep0 = ⟨[ep0, P0], P0, .ok sv.warningMsg⟩) := by
  refine ⟨?_, ?_, ?_, ?_⟩
  · show (cvLoop parse responses 0 maxRedirects ep0).1.length ≤ maxRedirects + 1
    exact cvLoop_len parse responses maxRedirects 0 ep0
  · intro r0 r1 r2 P0 P1 P2 h0 s0 l0 p0 h1 s1 l1 p1 h2 s2 l2 p2
    have e2 : cvLoop parse responses 2 0 P1 = ([P1], P2, .ok r2) := by
      rw [cvLoop]
      simp [h2, s2, l2, p2]
    have e1 : cvLoop parse responses 1 1 P0 = (P0 :: [P1], P2, .ok r2) := by
      rw [cvLoop]
      simp [h1, s1, l1, p1, e2]
    have e0 : cvLoop parse responses 0 2 ep0 = (ep0 :: P0 :: [P1], P2, .ok r2) := by
      rw [cvLoop]
      simp [h0, s0, l0, p0, e1]
    constructor
    · simp [checkVersion, maxRedirects, e0, s2, httpErrorOf]
    · show r2.status = 307
      exact s2
  · intro r0 h0 s0 l0
    have e0 : cvLoop parse responses 0 maxRedirects ep0 = ([ep0], ep0, .error .invalidRedirect) := by
      rw [cvLoop]
      simp [h0, s0, l0]
    simp [checkVersion, e0]
  · intro r0 r1 P0 sv h0 s0 l0 p0 h1 s1 hsv
    have e1 : cvLoop parse responses 1 1 P0 = ([P0], P0, .ok r1) := by
      rw [cvLoop]
      simp [h1, s1]
    have e0 : cvLoop parse responses 0 2 ep0 = (ep0 :: [P0], P0, .ok r1) := by
      rw [cvLoop]
      simp [h0, s0, l0, p0, e1]
    simp [checkVersion, maxRedirects, e0, s1, hsv]

/-- Claim C4 witness: three consecutive redirects refused with the 307
HTTP error, an empty Location rejected, and a single redirect followed
to success, against concrete brokers. -/
theorem checkVersion_redirect_spec_check :
    checkVersion some responsesRedirC "https://teleconsole.com" =
      ⟨["https://teleconsole.com", "https://us2.example", "https://us3.example"],
        "https://us4.example", .httpError (httpErrorOf (respRedirC "https://us4.example"))⟩ ∧
    checkVersion some responsesNoLocC "https://teleconsole.com" =
      ⟨["https://teleconsole.com"], "https://teleconsole.com", .invalidRedirect⟩ ∧
    checkVersion some responsesOkC "https://teleconsole.com" =
      ⟨["https://teleconsole.com", "https://us2.example"], "https://us2.example", .ok ""⟩ := by
  refine ⟨?_, ?_, ?_⟩
  · exact ((checkVersion_redirect_spec some responsesRedirC "https://teleconsole.com").2.1
      (respRedirC "https://us2.example") (respRedirC "https://us3.example")
      (respRedirC "https://us4.example")
      "https://us2.example" "https://us3.example" "https://us4.example"
      rfl rfl (by decide) rfl rfl rfl (by decide) rfl rfl rfl (by decide) rfl).1
  · exact (checkVersion_redirect_spec some responsesNoLocC "https://teleconsole.com").2.2.1
      (respRedirC "") rfl rfl rfl
  · exact (checkVersion_redirect_spec some responsesOkC "https://teleconsole.com").2.2.2
      (respRedirC "https://us2.example") respVerC "https://us2.example" ⟨"1.0", ""⟩
      rfl rfl (by decide) rfl rfl rfl rfl

/-- Claim C3: in the shell-created callback, the broker is polled at most
10 times, each poll preceded by a one-second sleep; the loop ends
successfully on the first poll whose parties list is non-empty, printing
the user-visible session id (prefix ++ web sid) at that point; and when
all 10 polls return an empty parties list the callback fails with the
tunnel-not-established error. -/
theorem onShellCreated_spec (publish : Except String Unit)
    (polls : Nat → Except String SessionStats) (endpointHost sessionID : String) :
    (publish = .ok () →
      (∀ t < statsAttempts, ∃ s, polls t = .ok s ∧ s.parties = []) →
      onShellCreated publish polls endpointHost sessionID =
        ⟨true, some brokenSessionMsg, none, pollTrace 0 statsAttempts⟩) ∧
    (∀ j stats, publish = .ok () → j < statsAttempts →
      (∀ t < j, ∃ s, polls t = .ok s ∧ s.parties = []) →
      polls j = .ok stats → stats.parties ≠ [] →
      onShellCreated publish polls endpointHost sessionID =
        ⟨false, none, some (sesionPrefixFor endpointHost ++ sessionID),
          pollTrace 0 (j + 1)⟩) ∧
    countPolls (onShellCreated publish polls endpointHost sessionID).events ≤ statsAttempts ∧
    statsAttempts = 10 ∧
    syncRefreshIntervalSec = 1 ∧
    (∀ start n, countPolls (pollTrace start n) = n) := by
  refine ⟨?_, ?_, ?_, rfl, rfl, fun start n => countPolls_pollTrace n start⟩
  · intro hpub hall
    unfold onShellCreated
    rw [hpub]
    exact statsLoop_all_empty polls _ statsAttempts 0 (fun t ht => by
      rw [Nat.zero_add]
      exact hall t ht)
  · intro j stats hpub hj hemp hpoll hne
    unfold onShellCreated
    rw [hpub]
    exact statsLoop_success polls _ j statsAttempts 0 stats hj
      (fun t ht => by
        rw [Nat.zero_add]
        exact hemp t ht)
      (by
        rw [Nat.zero_add]
        exact hpoll)
      hne
  · unfold onShellCreated
    cases publish with
    | error e => simp [countPolls]
    | ok u => exact statsLoop_poll_bound polls _ statsAttempts 0

/-- Claim C3 witness: a run where all ten polls are empty, and a run
where the first poll already sees a party. -/
theorem onShellCreated_spec_check :
    onShellCreated (.ok ()) (fun _ => .ok statsEmptyC) "teleconsole.com" "abc" =
      ⟨true, some brokenSessionMsg, none, pollTrace 0 10⟩ ∧
    onShellCreated (.ok ()) (fun i => if i = 0 then .ok statsOneC else .ok statsEmptyC)
        "eu.teleconsole.com" "abc" =
      ⟨false, none, some (sesionPrefixFor "eu.teleconsole.com" ++ "abc"), pollTrace 0 1⟩ := by
  constructor
  · exact (onShellCreated_spec (.ok ()) (fun _ => .ok statsEmptyC) "teleconsole.com" "abc").1
      rfl (fun t _ => ⟨statsEmptyC, rfl, rfl⟩)
  · exact (onShellCreated_spec (.ok ())
      (fun i => if i = 0 then .ok statsOneC else .ok statsEmptyC) "eu.teleconsole.com" "abc").2.1
      0 statsOneC rfl (by decide) (fun t ht => absurd ht (by omega)) rfl (by decide)

/-- Claim C2: `find_user_for` returns the first session user whose
private key is non-empty as-is (the anonymous-session shortcut);
otherwise a candidate identity is built from the `-i` file when given
(propagating read errors), else the `~/.ssh/id_*` glob matches are
tried in turn; an identity matches when `private_key_for` — which
compares whitespace-trimmed public keys over every login — yields a key
for some session user; and when no identity matches, the call fails with
the KeyMismatch error whose message contains "teleconsole -i". -/
theorem findUserFor_spec (session : GoSession) (fp : String) (env : IdentityEnv)
    (globMatches : List String) :
    (∀ p, session.secrets.users.find? (fun q => privNonEmpty q.2.key) = some p →
      findUserFor session fp env globMatches = .ok p.2) ∧
    (session.secrets.users.find? (fun q => privNonEmpty q.2.key) = none → fp ≠ "" →
      (∀ e, makeIdentityFromFile env fp = .error e →
        findUserFor session fp env globMatches = .error e) ∧
      (∀ i, makeIdentityFromFile env fp = .ok i →
        (∀ u, matchingUserFor i session.secrets.users = some u →
          findUserFor session fp env globMatches = .ok u) ∧
        (matchingUserFor i session.secrets.users = none →
          findUserFor session fp env globMatches = .error (keyMismatchMsg session.id)))) ∧
    (session.secrets.users.find? (fun q => privNonEmpty q.2.key) = none → fp = "" →
      (∀ u, globLoop env session.secrets.users globMatches = some u →
        findUserFor session fp env globMatches = .ok u) ∧
      (globLoop env session.secrets.users globMatches = none →
        findUserFor session fp env globMatches = .error (keyMismatchMsg session.id))) ∧
    (∀ i : Identity, matchingUserFor i session.secrets.users = none ↔
      ∀ p ∈ session.secrets.users, i.privateKeyFor p.2.key.pub = none) ∧
    (∀ (i : Identity) (pub : String),
      i.privateKeyFor pub =
        (i.logins.find? (fun l => goTrimSpace l.key.pub == goTrimSpace pub)).bind
          (fun l => l.key.priv)) ∧
    strContainsSub (keyMismatchMsg session.id) "teleconsole -i" = true := by
  refine ⟨?_, ?_, ?_, ?_, ?_, ?_⟩
  · intro p hfind
    simp [findUserFor, hfind]
  · intro hnone hfp
    constructor
    · intro e hmk
      simp [findUserFor, hnone, hfp, hmk]
    · intro i hmk
      constructor
      · intro u hmatch
        simp [findUserFor, hnone, hfp, hmk, hmatch]
      · intro hmatch
        simp [findUserFor, hnone, hfp, hmk, hmatch]
  · intro hnone hfp
    subst hfp
    constructor
    · intro u hglob
      simp [findUserFor, hnone, hglob]
    · intro hglob
      simp [findUserFor, hnone, hglob]
  · intro i
    exact matchingUserFor_eq_none i session.secrets.users
  · intro i pub
    exact privateKeyFor_eq_find i pub
  · exact keyMismatchMsg_contains_dash_i session.id

/-- Claim C2 witness: the anonymous shortcut, a matching `-i` key (with
whitespace-trimmed comparison), and the KeyMismatch failure, at concrete
sessions. -/
theorem findUserFor_spec_check :
    findUserFor sessAnonC "" envC [] = .ok ⟨"alice", ⟨"PUB", some "PRIV", none⟩, ["alice"]⟩ ∧
    findUserFor sessNamedC "/home/alice/.ssh/id_rsa" envC [] =
      .ok ⟨"id_rsa", ⟨"pubA", some "privA", none⟩, ["alice", "id_rsa"]⟩ ∧
    findUserFor sessNamed2C "/home/alice/.ssh/id_rsa" envC [] =
      .error (keyMismatchMsg "beef2") ∧
    strContainsSub (keyMismatchMsg "beef2") "teleconsole -i" = true := by
  refine ⟨?_, ?_, ?_, ?_⟩
  · exact (findUserFor_spec sessAnonC "" envC []).1
      ("alice", ⟨"alice", ⟨"PUB", some "PRIV", none⟩, ["alice"]⟩) (by decide)
  · exact ((findUserFor_spec sessNamedC "/home/alice/.ssh/id_rsa" envC []).2.1
      (by decide) (by decide)).2 identFileC (by decide)
      |>.1 ⟨"id_rsa", ⟨"pubA", some "privA", none⟩, ["alice", "id_rsa"]⟩ (by decide)
  · exact (((findUserFor_spec sessNamed2C "/home/alice/.ssh/id_rsa" envC []).2.1
      (by decide) (by decide)).2 identFileC (by decide)).2 (by decide)
  · have h := (findUserFor_spec sessNamed2C "/home/alice/.ssh/id_rsa" envC []).2.2.2.2.2
    exact h

/-- Claim C10: `replace_host` returns the host of `newHost` joined with
the port of `hostPort` when both arguments carry a port; just the host of
`newHost` when `hostPort` has none; and when `newHost` itself has no
port, the substituted host component is the empty string. -/
theorem replaceHost_spec (hostPort newHost h1 p1 h2 p2 e e' : String) :
    (splitHostPort hostPort = .ok (h1, p1) → p1 ≠ "" →
      splitHostPort newHost = .ok (h2, p2) →
      replaceHost hostPort newHost = joinHostPort h2 p1) ∧
    (splitHostPort hostPort = .error e → splitHostPort newHost = .ok (h2, p2) →
      replaceHost hostPort newHost = h2) ∧
    (splitHostPort newHost = .error e → splitHostPort hostPort = .ok (h1, p1) → p1 ≠ "" →
      replaceHost hostPort newHost = joinHostPort "" p1 ∧ joinHostPort "" p1 = ":" ++ p1) ∧
    (splitHostPort newHost = .error e → splitHostPort hostPort = .error e' →
      replaceHost hostPort newHost = "") := by
  refine ⟨?_, ?_, ?_, ?_⟩
  · intro hhp hp hnh
    simp [replaceHost, hhp, hnh, hp]
  · intro hhp hnh
    simp [replaceHost, hhp, hnh]
  · intro hnh hhp hp
    refine ⟨by simp [replaceHost, hhp, hnh, hp], ?_⟩
    show joinHostPort "" p1 = ":" ++ p1
    simp [joinHostPort, charIndexOf]
  · intro hnh hhp
    simp [replaceHost, hhp, hnh]

/-- Claim C10 witness: the three regimes at concrete addresses. -/
theorem replaceHost_spec_check :
    replaceHost "1.2.3.4:5000" "proxy.example.com:443" = "proxy.example.com:5000" ∧
    replaceHost "1.2.3.4" "proxy.example.com:443" = "proxy.example.com" ∧
    replaceHost "1.2.3.4:5000" "proxy.example.com" = ":5000" := by
  refine ⟨?_, ?_, ?_⟩
  · have h := (replaceHost_spec "1.2.3.4:5000" "proxy.example.com:443" "1.2.3.4" "5000"
      "proxy.example.com" "443" "" "").1 (by decide) (by decide) (by decide)
    exact h.trans (by decide)
  · exact (replaceHost_spec "1.2.3.4" "proxy.example.com:443" "" "" "proxy.example.com" "443"
      "missing port in address" "").2.1 (by decide) (by decide)
  · have h := (replaceHost_spec "1.2.3.4:5000" "proxy.example.com" "1.2.3.4" "5000" "" ""
      "missing port in address" "").2.2.1 (by decide) (by decide) (by decide)
    exact h.1.trans (h.2.trans (by decide))

/-- Claim C7: `request_new_session` generates the web session id locally
by hex-encoding the 20 bytes drawn from the crypto random source, so the
id stored in the client and the id POSTed to `/api/sessions` are the
same string of exactly 40 hexadecimal characters. -/
theorem requestNewSession_sid_spec (rand : Nat → List Nat)
    (post : String → GoSession → Except String HTTPResp)
    (login : String) (secrets : Secrets) (hostname portSSH : String)
    (fport : Option ForwardedPort) (hlen : (rand 20).length = 20) :
    (requestNewSession rand post login secrets hostname portSSH fport).sessionID =
      hexEncode (rand 20) ∧
    (requestNewSession rand post login secrets hostname portSSH fport).postedSession.id =
      (requestNewSession rand post login secrets hostname portSSH fport).sessionID ∧
    (requestNewSession rand post login secrets hostname portSSH fport).postedPath =
      "/api/sessions" ∧
    (requestNewSession rand post login secrets hostname portSSH fport).sessionID.length = 40 ∧
    (∀ c ∈ (requestNewSession rand post login secrets hostname portSSH fport).sessionID.toList,
      c ∈ hexDigits) := by
  refine ⟨rfl, rfl, rfl, ?_, ?_⟩
  · show (hexEncode (rand 20)).length = 40
    rw [hexEncode_length, hlen]
  · show ∀ c ∈ (hexEncode (rand 20)).toList, c ∈ hexDigits
    exact hexEncode_chars (rand 20)

/-- Claim C7 witness: a concrete 20-byte draw yields a 40-char hex id. -/
theorem requestNewSession_sid_spec_check :
    (requestNewSession (fun n => List.replicate n 171) (fun _ _ => .error "down") "alice"
      ⟨[]⟩ "localhost" "3022" none).sessionID.length = 40 ∧
    (requestNewSession (fun n => List.replicate n 171) (fun _ _ => .error "down") "alice"
      ⟨[]⟩ "localhost" "3022" none).sessionID = hexEncode (List.replicate 20 171) :=
  ⟨(requestNewSession_sid_spec (fun n => List.replicate n 171) (fun _ _ => .error "down")
      "alice" ⟨[]⟩ "localhost" "3022" none (by decide)).2.2.2.1,
   (requestNewSession_sid_spec (fun n => List.replicate n 171) (fun _ _ => .error "down")
      "alice" ⟨[]⟩ "localhost" "3022" none (by decide)).1⟩

/-- Claim C8: the forward-spec parser maps "5000" to (localhost, 5000),
"host:22" to (host, 22), "http://ex.com" to (ex.com, 80) and
"https://ex.com" to (ex.com, 443); the scheme rules apply only when the
parsed URL has a non-empty host (otherwise the parser falls through to
numeric and host:port handling); and "foo" is an error. -/
theorem parseForwardAddr_spec :
    parseForwardAddr "5000" =
      .ok { srcIP := "", srcPort := 0, destPort := 5000, destHost := "localhost" } ∧
    parseForwardAddr "host:22" =
      .ok { srcIP := "", srcPort := 0, destPort := 22, destHost := "host" } ∧
    parseForwardAddr "http://ex.com" =
      .ok { srcIP := "", srcPort := 0, destPort := 80, destHost := "ex.com" } ∧
    parseForwardAddr "https://ex.com" =
      .ok { srcIP := "", srcPort := 0, destPort := 443, destHost := "ex.com" } ∧
    parseForwardAddr "foo" = .error "missing port in address" ∧
    (∀ spec u, urlParse spec = .ok u → u.host = "" →
      parseForwardAddr spec =
        match atoi spec with
        | .ok n => .ok { srcIP := "", srcPort := 0, destPort := n, destHost := "localhost" }
        | .error _ =>
          match splitHostPort spec with
          | .error e => .error e
          | .ok (host, port) =>
            match atoi port with
            | .error e => .error e
            | .ok n => .ok { srcIP := "", srcPort := 0, destPort := n, destHost := host }) := by
  refine ⟨by decide, by decide, by decide, by decide, by decide, ?_⟩
  intro spec u hu hhost
  simp [parseForwardAddr, hu, hhost]

/-- Claim C8 witness: the fall-through branch applied at a numeric spec. -/
theorem parseForwardAddr_spec_check :
    parseForwardAddr "8888" =
      .ok { srcIP := "", srcPort := 0, destPort := 8888, destHost := "localhost" } := by
  have h := parseForwardAddr_spec.2.2.2.2.2 "8888" ⟨"", ""⟩ (by decide) rfl
  exact h.trans (by decide)

/-- Claim C9 (a bug in `PublishSessionID`): on a transport-level POST
failure Go returns a nil response, and the function dereferences it (the
deferred `resp.Body.Close()` and the `resp.StatusCode` read) before
checking the error, so the process panics instead of returning the
error; when a response does arrive, status 200 returns nil and any other
status returns the mapped HTTP error. -/
theorem publishSessionID_crash :
    publishSessionID (.error "connection refused") = .panics ∧
    publishSessionID (.ok respVerC) = .ok ∧
    publishSessionID (.ok resp404C) =
      .httpError ⟨404, "404 Not Found", "missing session"⟩ := by
  decide
